import Mathlib

/-!
Shallow embedding of the meeting-analytics service in
`src/q2_content_analysis_mcp/src/server.py`.

Modelling conventions:
* An instant is an integer number of minutes since an arbitrary epoch
  (all real datetimes are far from overflow, so plain `ℤ` is faithful).
  Python's `datetime.date()` and `.hour` on such an instant are floor
  division by 1440 and the minute-of-day divided by 60; Python's `//` and
  `%` with a positive divisor coincide with `Int.ediv` / `Int.emod`.
* Stored meeting timestamps are modelled as already-parsed instants:
  `parse_datetime` is total (proved below on its own model), so reading a
  well-formed stored field through it is the identity on the instant.
* Python floats in the scoring arithmetic are modelled as exact rationals
  (`ℚ`); every literal involved (0.2, 0.15, 0.1, 0.01, …) is a short
  decimal and the discrepancies at issue (7.8 vs 8.0) are far beyond any
  float rounding.
* A Python `dict` raising `KeyError` on a missing key is modelled by an
  `Option` field, and a function that lets an exception escape is modelled
  with `Option`/`Except` results.
-/

set_option autoImplicit false

namespace MCPServer

/-! ### Data model -/

/-- Python's binary `min` (ties keep the first argument). -/
def py_min (a b : ℚ) : ℚ := if a ≤ b then a else b

/-- Python's binary `max` over rationals. -/
def py_max (a b : ℚ) : ℚ := if a ≤ b then b else a

/-- Python's binary `max` over integers. -/
def py_max_int (a b : ℤ) : ℤ := if a ≤ b then b else a

/-- Minute-of-day (0–1439) of an instant, Python `dt.hour * 60 + dt.minute`. -/
def minuteOfDay (t : ℤ) : ℤ := t.emod 1440

/-- Python `dt.hour` of an instant. -/
def hourOf (t : ℤ) : ℤ := (t.emod 1440).ediv 60

/-- Python `dt.date()` of an instant, as a calendar-day index. -/
def dateOf (t : ℤ) : ℤ := t.ediv 1440

/-- A meeting record of the in-memory store, with its two timestamp strings
already put through `parse_datetime` (see module comment). -/
structure Meeting where
  id : String
  title : String
  participants : List String
  start_time : ℤ
  end_time : ℤ
  meeting_type : String
  agenda : String
  effectiveness_score : ℚ
  deriving DecidableEq, Repr

/-- The nested `meeting_preferences` dict of a user record. -/
structure MeetingPrefs where
  max_daily_meetings : Option ℕ
  deriving DecidableEq, Repr

/-- A user record from the fixture's `users` list. -/
structure User where
  user_id : String
  meeting_preferences : Option MeetingPrefs
  deriving DecidableEq, Repr

/-- The process-wide store: `data["meetings"]` and `data["users"]`. -/
structure Store where
  meetings : List Meeting
  users : List User
  deriving Repr

/-- `get_user_meetings`: meetings whose participant list contains the user,
in store order. -/
def get_user_meetings (store : Store) (user_id : String) : List Meeting :=
  store.meetings.filter (fun m => m.participants.contains user_id)

/-- `get_user_preferences`: linear scan of users by identifier. -/
def get_user_preferences (store : Store) (user_id : String) : Option User :=
  store.users.find? (fun u => u.user_id == user_id)

/-! ### `parse_datetime` (server.py lines 72–104)

The four parse attempts call external library routines
(`datetime.fromisoformat` twice on the raw string, once on the string with
`Z` replaced, and `dateutil.parser.parse`); they are modelled as oracle
arguments giving each attempt's outcome, `none` meaning the attempt raised.
The third attempt repeats `datetime.fromisoformat(dt_str)`, so it receives
the same oracle value as the first. -/

/-- A Python `datetime`: naive wall-clock minutes plus an optional tzinfo
(UTC-offset in minutes; `some 0` is `pytz.UTC`). -/
structure PyDateTime where
  time : ℤ
  tz : Option ℤ
  deriving DecidableEq, Repr

/-- `dt.replace(tzinfo=pytz.UTC)` guarded by `if dt.tzinfo is None`. -/
def utcIfNaive (dt : PyDateTime) : PyDateTime :=
  if dt.tz = none then { dt with tz := some 0 } else dt

/-- `parse_datetime`: `isEmpty` models the falsiness test on the input
string, `iso` the outcome of `datetime.fromisoformat(dt_str)` (used by
attempts 1 and 3), `isoZ` the outcome after `Z` → `+00:00` replacement,
`du` the outcome of `dateutil.parser.parse`, and `now` the current instant
used by the final fallback. -/
def parse_datetime (isEmpty : Bool) (iso isoZ du : Option PyDateTime)
    (now : ℤ) : PyDateTime :=
  if isEmpty then ⟨now, some 0⟩ else
  match iso with
  | some dt => utcIfNaive dt
  | none =>
    match isoZ with
    | some dt => utcIfNaive dt
    | none =>
      -- attempt 3 repeats `datetime.fromisoformat(dt_str)` and replaces the
      -- tz unconditionally; it can only be reached with `iso = none`
      match iso with
      | some dt => { dt with tz := some 0 }
      | none =>
        match du with
        | some dt => utcIfNaive dt
        | none => ⟨now, some 0⟩

/-! ### `check_time_conflict` (server.py lines 106–127)

The function reads the `start_time`/`end_time` keys of two meeting dicts;
a record with a missing key is modelled with the field `none`, which in the
source raises `KeyError` and lands in the `except` branch returning
`False`. Timestamps present are already timezone-normalised instants (the
post-`parse_datetime` tz fix-ups are identities on them). -/

/-- A meeting dict as `check_time_conflict` and `create_meeting` see it:
only the fields those functions touch, time fields optional to model
missing keys. -/
structure MeetingRec where
  title : String
  participants : List String
  start_time : Option ℤ
  end_time : Option ℤ
  deriving DecidableEq, Repr

/-- `check_time_conflict`: the half-open interval overlap test
`start1 < end2 and start2 < end1`, with any exception (missing key)
absorbed into `False`. -/
def check_time_conflict (m1 m2 : MeetingRec) : Bool :=
  match m1.start_time, m1.end_time, m2.start_time, m2.end_time with
  | some s1, some e1, some s2, some e2 => decide (s1 < e2) && decide (s2 < e1)
  | _, _, _, _ => false

/-- The conflict scan of `create_meeting` (lines 206–222): for each
participant of the new meeting, for each stored meeting of that
participant, report `(participant, title, start_time)` on overlap; the new
meeting is appended to the store regardless. -/
def create_meeting_conflicts (store : List MeetingRec) (newMeeting : MeetingRec) :
    List (String × String × Option ℤ) :=
  newMeeting.participants.flatMap (fun p =>
    ((store.filter (fun m => m.participants.contains p)).filter
        (fun m => check_time_conflict newMeeting m)).map
      (fun m => (p, m.title, m.start_time)))

/-- `create_meeting`'s observable store effect together with the conflicts
it reports: the meeting is always appended. -/
def create_meeting (store : List MeetingRec) (newMeeting : MeetingRec) :
    List (String × String × Option ℤ) × List MeetingRec :=
  (create_meeting_conflicts store newMeeting, store ++ [newMeeting])

/-! ### `find_optimal_slots` (server.py lines 234–259)

`datetime.now()` is passed in as the instant `now`; each slot starts at
`current_time + timedelta(days=i+1, hours=9)`. -/

structure OptimalSlot where
  start_time : ℤ
  end_time : ℤ
  duration_minutes : ℤ
  ai_score : ℤ
  recommended : Bool
  deriving DecidableEq, Repr

/-- `find_optimal_slots`: five synthetic slots; the participants of the
request are returned verbatim and never influence the slots. -/
def find_optimal_slots (now : ℤ) (_participants : List String) (duration : ℤ) :
    List OptimalSlot :=
  (List.range 5).map (fun i =>
    let slot_start := now + ((i : ℤ) + 1) * 1440 + 9 * 60
    { start_time := slot_start
      end_time := slot_start + duration
      duration_minutes := duration
      ai_score := 10 - (i : ℤ)
      recommended := decide (i < 2) })

/-! ### `detect_scheduling_conflicts` (server.py lines 264–293) -/

/-- The boolean range test of `detect_scheduling_conflicts`:
`start_time <= meeting_start <= end_time or
 start_time <= meeting_end <= end_time or
 meeting_start <= start_time <= meeting_end`. -/
def in_conflict_range (rangeStart rangeEnd : ℤ) (m : Meeting) : Bool :=
  (decide (rangeStart ≤ m.start_time) && decide (m.start_time ≤ rangeEnd)) ||
  (decide (rangeStart ≤ m.end_time) && decide (m.end_time ≤ rangeEnd)) ||
  (decide (m.start_time ≤ rangeStart) && decide (rangeStart ≤ m.end_time))

/-- `detect_scheduling_conflicts`: the user's meetings passing the range
test, in store order. -/
def detect_scheduling_conflicts (store : Store) (user_id : String)
    (rangeStart rangeEnd : ℤ) : List Meeting :=
  (get_user_meetings store user_id).filter (in_conflict_range rangeStart rangeEnd)

/-! ### `find_available_slots` (server.py lines 129–166) -/

structure Slot where
  start_time : ℤ
  end_time : ℤ
  duration_minutes : ℤ
  deriving DecidableEq, Repr

/-- The busy-interval collection of `find_available_slots`: for each
participant in order, the meetings whose *start* lies in
`[startDate, endDate]` (inclusive), as `(start, end)` pairs. -/
def busy_times (store : Store) (participants : List String)
    (startDate endDate : ℤ) : List (ℤ × ℤ) :=
  participants.flatMap (fun p =>
    ((get_user_meetings store p).filter
        (fun m => decide (startDate ≤ m.start_time) && decide (m.start_time ≤ endDate))).map
      (fun m => (m.start_time, m.end_time)))

/-- The conflict test of the slot loop:
`current_time < busy_end and slot_end > busy_start` for some busy pair. -/
def slot_conflicts (busy : List (ℤ × ℤ)) (current slotEnd : ℤ) : Bool :=
  busy.any (fun b => decide (current < b.2) && decide (slotEnd > b.1))

/-- The `while current_time + duration <= end_date` loop of
`find_available_slots`, advancing one hour per step. -/
def slot_scan (busy : List (ℤ × ℤ)) (duration endDate current : ℤ) : List Slot :=
  if h : current + duration ≤ endDate then
    let slotEnd := current + duration
    if slot_conflicts busy current slotEnd then
      slot_scan busy duration endDate (current + 60)
    else
      ⟨current, slotEnd, duration⟩ :: slot_scan busy duration endDate (current + 60)
  else []
termination_by (endDate - duration - current + 60).toNat
decreasing_by all_goals omega

/-- `find_available_slots`: scan from the range start, keep the first five
results (`available_slots[:5]`). -/
def find_available_slots (store : Store) (participants : List String)
    (duration : ℤ) (startDate endDate : ℤ) : List Slot :=
  (slot_scan (busy_times store participants startDate endDate)
    duration endDate startDate).take 5

/-! ### `score_meeting_effectiveness` (server.py lines 476–577)

All float arithmetic is exact here (every weight is a short decimal and
every sub-score an integer). The endpoint's final `round(final_score, 2)`
is the identity on every value these claims touch (each non-historical
term is a multiple of 1/20), so the model returns the clamped weighted sum
directly. -/

def duration_score (m : Meeting) : ℚ :=
  let d := m.end_time - m.start_time
  if 30 ≤ d ∧ d ≤ 60 then 10 else if 15 ≤ d ∧ d ≤ 90 then 7 else 4

def participant_score (m : Meeting) : ℚ :=
  let c := m.participants.length
  if 3 ≤ c ∧ c ≤ 8 then 10 else if 2 ≤ c ∧ c ≤ 12 then 7 else 4

def time_score (m : Meeting) : ℚ :=
  let h := hourOf m.start_time
  if 9 ≤ h ∧ h ≤ 17 then 10 else if 8 ≤ h ∧ h ≤ 18 then 7 else 4

/-- The `type_scores` lookup table with default 6. -/
def type_score (m : Meeting) : ℚ :=
  match m.meeting_type with
  | "team_sync" => 8
  | "planning" => 9
  | "review" => 8
  | "workshop" => 9
  | "standup" => 7
  | "retrospective" => 8
  | "demo" => 8
  | "training" => 7
  | _ => 6

def agenda_score (m : Meeting) : ℚ :=
  let l := m.agenda.length
  if l > 20 then 10 else if l > 10 then 7 else 4

/-- The historical factor: included only when the stored score is > 0. -/
def historical_term (m : Meeting) : ℚ :=
  if m.effectiveness_score > 0 then m.effectiveness_score * 0.2 else 0

/-- `score_meeting_effectiveness`'s returned `effectiveness_score`:
weighted sum of the factors, clamped to [0, 10]. -/
def score_meeting_effectiveness (m : Meeting) : ℚ :=
  let score := duration_score m * 0.2 + participant_score m * 0.15 +
    time_score m * 0.15 + type_score m * 0.2 + agenda_score m * 0.1 +
    historical_term m
  py_min 10 (py_max 0 score)

/-! ### `calculate_workload_balance` (server.py lines 417–474) -/

/-- Total meeting duration in minutes, `sum(end - start)`. -/
def total_duration (ms : List Meeting) : ℤ :=
  (ms.map (fun m => m.end_time - m.start_time)).sum

/-- `max(daily_meetings.values()) if daily_meetings else 0`: the largest
number of the user's meetings sharing one calendar date. -/
def max_daily_count (ms : List Meeting) : ℕ :=
  let dates := ms.map (fun m => dateOf m.start_time)
  (dates.map (fun d => dates.count d)).foldr Nat.max 0

/-- One member's `workload_score`:
`total_meetings * 0.4 + total_duration * 0.01 + max_daily_meetings * 0.6`. -/
def workload_score (store : Store) (member : String) : ℚ :=
  let ms := get_user_meetings store member
  (ms.length : ℚ) * 0.4 + (total_duration ms : ℚ) * 0.01 +
    (max_daily_count ms : ℚ) * 0.6

def workload_scores (store : Store) (members : List String) : List ℚ :=
  members.map (workload_score store)

/-- The `balance_score` expression
`1 - (max(ws) - min(ws)) / max(ws) if ws else 1`: Python's division raises
`ZeroDivisionError` when `max(ws)` is zero, modelled as `none`. -/
def balance_score (store : Store) (members : List String) : Option ℚ :=
  match workload_scores store members with
  | [] => some 1
  | s :: rest =>
    let mx := rest.foldl py_max s
    let mn := rest.foldl py_min s
    if mx = 0 then none else some (1 - (mx - mn) / mx)

/-! ### `optimize_meeting_schedule` (server.py lines 579–669) -/

/-- Insertion-order key list of a Python dict built by repeated
`dict[k] = …`: first occurrence of each key, in order. -/
def firstDedup : List ℤ → List ℤ
  | [] => []
  | a :: l => a :: (firstDedup l).filter (fun d => d ≠ a)

/-- The distinct calendar dates of a meeting list, in the order the
`daily_meetings` dict acquires its keys. -/
def meeting_dates (ms : List Meeting) : List ℤ :=
  firstDedup (ms.map (fun m => dateOf m.start_time))

/-- The `daily_meetings[date]` group: the meetings on one date, in stored
order. -/
def meetings_on (ms : List Meeting) (d : ℤ) : List Meeting :=
  ms.filter (fun m => decide (dateOf m.start_time = d))

/-- `user_prefs.get("meeting_preferences", {}).get("max_daily_meetings", 5)
if user_prefs else 5`. -/
def max_daily_limit (store : Store) (user_id : String) : ℕ :=
  match get_user_preferences store user_id with
  | none => 5
  | some u =>
    match u.meeting_preferences with
    | none => 5
    | some mp => mp.max_daily_meetings.getD 5

/-- The `overloaded_days` list: dates whose meeting count exceeds the
user's daily limit, with their meeting groups. -/
def overloaded_days (store : Store) (user_id : String) : List (ℤ × List Meeting) :=
  let ms := get_user_meetings store user_id
  (meeting_dates ms).filterMap (fun d =>
    let g := meetings_on ms d
    if g.length > max_daily_limit store user_id then some (d, g) else none)

/-- The `overloaded_day` recommendations, projected to their date and the
`meetings_to_reschedule` titles (`[m["title"] for m in meetings[limit:]]`). -/
def overloaded_day_recs (store : Store) (user_id : String) :
    List (ℤ × List String) :=
  (overloaded_days store user_id).map (fun p =>
    (p.1, (p.2.drop (max_daily_limit store user_id)).map (fun m => m.title)))

/-- The `non_business_meetings` list: meetings with start hour < 8 or
start hour > 18. -/
def non_business_meetings (store : Store) (user_id : String) : List Meeting :=
  (get_user_meetings store user_id).filter
    (fun m => decide (hourOf m.start_time < 8) || decide (hourOf m.start_time > 18))

/-- The `optimization_score`: 100, minus 20 per overloaded day and 10 per
non-business-hours meeting (each subtraction guarded by a non-emptiness
test as in the source), floored at 0. -/
def optimization_score (store : Store) (user_id : String) : ℤ :=
  let od := overloaded_days store user_id
  let nb := non_business_meetings store user_id
  let s1 : ℤ := if od.isEmpty then 100 else 100 - (od.length : ℤ) * 20
  let s2 : ℤ := if nb.isEmpty then s1 else s1 - (nb.length : ℤ) * 10
  py_max_int 0 s2

/-- `optimize_meeting_schedule`'s observable result for these claims: the
score and the overloaded-day recommendations; a user with no meetings gets
the early "No meetings found" return instead (`none`). -/
def optimize_meeting_schedule (store : Store) (user_id : String) :
    Option (ℤ × List (ℤ × List String)) :=
  if (get_user_meetings store user_id).isEmpty then none
  else some (optimization_score store user_id, overloaded_day_recs store user_id)

/-! ## Concrete fixtures used by witnesses and counterexamples -/

/-- A meeting realising the maximal no-history factor profile: 60 minutes,
3 participants, 09:00 start, type `planning`, 21-character agenda, stored
score 0. -/
def mBest : Meeting :=
  { id := "m1", title := "t", participants := ["a", "b", "c"],
    start_time := 540, end_time := 600, meeting_type := "planning",
    agenda := "123456789012345678901", effectiveness_score := 0 }

/-- An empty store. -/
def st0 : Store := { meetings := [], users := [] }

/-- A meeting of user `p` running 15:40–17:40, i.e. already in progress at
16:40. -/
def mA : Meeting :=
  { id := "m1", title := "early", participants := ["p"],
    start_time := 940, end_time := 1060, meeting_type := "general",
    agenda := "", effectiveness_score := 0 }

/-- Store holding only `mA`. -/
def stA : Store := { meetings := [mA], users := [] }

/-- A meeting of user `q` running 16:40–17:40. -/
def mB : Meeting :=
  { id := "m2", title := "inside", participants := ["q"],
    start_time := 1000, end_time := 1060, meeting_type := "general",
    agenda := "", effectiveness_score := 0 }

/-- Store holding only `mB`. -/
def stB : Store := { meetings := [mB], users := [] }

/-- A meeting of user `u` ending at 16:40 sharp. -/
def mEnd : Meeting :=
  { id := "m3", title := "ending", participants := ["u"],
    start_time := 900, end_time := 1000, meeting_type := "general",
    agenda := "", effectiveness_score := 0 }

/-- Store holding only `mEnd`. -/
def stEnd : Store := { meetings := [mEnd], users := [] }

/-- The i-th of user `u`'s seven half-hour meetings on day 0. -/
def mk8 (i : ℕ) (t : ℤ) : Meeting :=
  { id := toString i, title := "mt" ++ toString i, participants := ["u"],
    start_time := t, end_time := t + 30, meeting_type := "general",
    agenda := "", effectiveness_score := 0 }

/-- Seven meetings of user `u` on one day, 09:00–15:00 starts. -/
def st8 : Store :=
  { meetings := [mk8 1 540, mk8 2 600, mk8 3 660, mk8 4 720, mk8 5 780,
      mk8 6 840, mk8 7 900],
    users := [] }

/-- A single meeting of user `u` starting 18:30. -/
def mLate : Meeting :=
  { id := "m1", title := "late", participants := ["u"],
    start_time := 1110, end_time := 1170, meeting_type := "general",
    agenda := "", effectiveness_score := 0 }

/-- Store holding only `mLate`. -/
def st18 : Store := { meetings := [mLate], users := [] }

/-! ## Helper lemmas -/

theorem slot_scan_step_free {busy : List (ℤ × ℤ)} {d e c : ℤ}
    (h : c + d ≤ e) (hc : slot_conflicts busy c (c + d) = false) :
    slot_scan busy d e c = ⟨c, c + d, d⟩ :: slot_scan busy d e (c + 60) := by
  rw [slot_scan]
  simp [h, hc]

theorem slot_scan_stop {busy : List (ℤ × ℤ)} {d e c : ℤ}
    (h : ¬ (c + d ≤ e)) : slot_scan busy d e c = [] := by
  rw [slot_scan]
  simp [h]

/-- Soundness invariant of the hourly scan: every emitted slot starts a
whole number of hours after the scan origin, has the requested length,
fits before the range end and passes the busy-overlap test. -/
theorem slot_scan_sound (busy : List (ℤ × ℤ)) (d e c : ℤ) (s : Slot)
    (hs : s ∈ slot_scan busy d e c) :
    (∃ k : ℕ, s.start_time = c + 60 * k) ∧ s.end_time = s.start_time + d ∧
      s.duration_minutes = d ∧ s.end_time ≤ e ∧
      slot_conflicts busy s.start_time s.end_time = false := by
  rw [slot_scan] at hs
  by_cases h : c + d ≤ e
  · simp only [h, dite_true] at hs
    by_cases hc : slot_conflicts busy c (c + d) = true
    · simp only [hc, if_true] at hs
      have ih := slot_scan_sound busy d e (c + 60) s hs
      obtain ⟨⟨k, hk⟩, ih2⟩ := ih
      exact ⟨⟨k + 1, by push_cast; omega⟩, ih2⟩
    · simp only [hc, if_false] at hs
      rcases List.mem_cons.mp hs with hhd | htl
      · subst hhd
        refine ⟨⟨0, by norm_num⟩, rfl, rfl, h, ?_⟩
        simpa using hc
      · have ih := slot_scan_sound busy d e (c + 60) s htl
        obtain ⟨⟨k, hk⟩, ih2⟩ := ih
        exact ⟨⟨k + 1, by push_cast; omega⟩, ih2⟩
  · simp [h] at hs
termination_by (e - d - c + 60).toNat
decreasing_by all_goals omega

theorem py_max_nonneg_le {s b : ℚ} (hs : s ≤ b) (hb : 0 ≤ b) :
    py_min 10 (py_max 0 s) ≤ b := by
  unfold py_min py_max
  split_ifs <;> linarith

theorem foldl_py_max_zero {l : List ℚ} (h : ∀ x ∈ l, x = 0) :
    l.foldl py_max 0 = 0 := by
  induction l with
  | nil => rfl
  | cons a t ih =>
    have ha : a = 0 := h a (by simp)
    have hmax : py_max 0 a = 0 := by
      unfold py_max
      simp [ha]
    simp only [List.foldl_cons, hmax]
    exact ih (fun x hx => h x (by simp [hx]))

theorem length_filterMap_ite {α β : Type} (l : List α) (P : α → Prop)
    [DecidablePred P] (f : α → β) :
    (l.filterMap (fun a => if P a then some (f a) else none)).length =
      (l.filter (fun a => decide (P a))).length := by
  induction l with
  | nil => rfl
  | cons a t ih => by_cases h : P a <;> simp [h, ih]

theorem firstDedup_const {l : List ℤ} {d : ℤ} (hne : l ≠ [])
    (h : ∀ x ∈ l, x = d) : firstDedup l = [d] := by
  induction l with
  | nil => exact absurd rfl hne
  | cons a t ih =>
    have ha : a = d := h a (by simp)
    subst ha
    cases t with
    | nil => rfl
    | cons b t' =>
      have ht : firstDedup (b :: t') = [a] :=
        ih (by simp) (fun x hx => h x (by simp [hx]))
      have hstep : firstDedup (a :: b :: t') =
          a :: (firstDedup (b :: t')).filter (fun x => x ≠ a) := rfl
      rw [hstep, ht]
      simp

/-! ## Claims -/

/-- C4: on any two meeting records with both time fields present,
`check_time_conflict` holds iff `startA < endB` and `startB < endA`; the
test is symmetric in the two intervals, and two intervals that merely touch
at an endpoint (`endA = startB`) never conflict. -/
theorem claim_C4_overlap (t1 t2 : String) (p1 p2 : List String)
    (sA eA sB eB : ℤ) :
    (check_time_conflict ⟨t1, p1, some sA, some eA⟩ ⟨t2, p2, some sB, some eB⟩ = true
        ↔ (sA < eB ∧ sB < eA))
    ∧ check_time_conflict ⟨t1, p1, some sA, some eA⟩ ⟨t2, p2, some sB, some eB⟩ =
        check_time_conflict ⟨t2, p2, some sB, some eB⟩ ⟨t1, p1, some sA, some eA⟩
    ∧ (eA = sB →
        check_time_conflict ⟨t1, p1, some sA, some eA⟩ ⟨t2, p2, some sB, some eB⟩ = false) := by
  refine ⟨?_, ?_, ?_⟩
  · simp [check_time_conflict]
  · rw [Bool.eq_iff_iff]
    simp only [check_time_conflict, Bool.and_eq_true, decide_eq_true_eq]
    tauto
  · intro h
    subst h
    simp only [check_time_conflict, Bool.and_eq_true, decide_eq_true_eq,
      Bool.and_eq_false_iff, decide_eq_false_iff_not]
    right
    omega

/-- Witness for C4 at 09:00–10:00 touching 10:00–11:00. -/
theorem claim_C4_overlap_witness :
    check_time_conflict ⟨"A", [], some 540, some 600⟩ ⟨"B", [], some 600, some 660⟩ = false :=
  (claim_C4_overlap "A" "B" [] [] 540 600 600 660).2.2 rfl

/-- C10: `check_time_conflict` is total over arbitrary meeting records —
a missing `start_time` or `end_time` field (a `KeyError` in the source) is
absorbed into `false`; consequently the conflict scan of `create_meeting`
never aborts: the new meeting is always appended, and on a record with a
missing field the scan silently omits that conflict (demonstrated on a
store whose only meeting lacks `end_time`). -/
theorem claim_C10_conflict_total :
    (∀ m1 m2 : MeetingRec,
        m1.start_time = none ∨ m1.end_time = none ∨
          m2.start_time = none ∨ m2.end_time = none →
        check_time_conflict m1 m2 = false)
    ∧ (∀ (store : List MeetingRec) (newMeeting : MeetingRec),
        (create_meeting store newMeeting).2 = store ++ [newMeeting])
    ∧ create_meeting [⟨"broken", ["a"], some 30, none⟩] ⟨"new", ["a"], some 0, some 60⟩ =
        ([], [⟨"broken", ["a"], some 30, none⟩, ⟨"new", ["a"], some 0, some 60⟩]) := by
  refine ⟨?_, fun store newMeeting => rfl, by decide⟩
  intro m1 m2 h
  obtain ⟨t1, p1, s1, e1⟩ := m1
  obtain ⟨t2, p2, s2, e2⟩ := m2
  cases s1 <;> cases e1 <;> cases s2 <;> cases e2 <;> simp_all [check_time_conflict]

/-- Witness for C10 on a record with a missing `start_time`. -/
theorem claim_C10_conflict_total_witness :
    check_time_conflict ⟨"x", [], none, some 5⟩ ⟨"y", [], some 0, some 9⟩ = false :=
  claim_C10_conflict_total.1 ⟨"x", [], none, some 5⟩ ⟨"y", [], some 0, some 9⟩ (Or.inl rfl)

/-- C5: `parse_datetime` never fails observably: whatever the parse
attempts do, the result carries a timezone; when the input is empty or
every attempt fails it is exactly "now" tagged UTC; and whenever the
attempt that produced the result returned a naive datetime, the result is
tagged UTC. -/
theorem claim_C5_parse_total (isEmpty : Bool) (iso isoZ du : Option PyDateTime)
    (now : ℤ) :
    (parse_datetime isEmpty iso isoZ du now).tz.isSome = true
    ∧ (isEmpty = true ∨ (iso = none ∧ isoZ = none ∧ du = none) →
        parse_datetime isEmpty iso isoZ du now = ⟨now, some 0⟩)
    ∧ ((∀ dt : PyDateTime, iso = some dt → dt.tz = none) →
        (∀ dt : PyDateTime, isoZ = some dt → dt.tz = none) →
        (∀ dt : PyDateTime, du = some dt → dt.tz = none) →
        (parse_datetime isEmpty iso isoZ du now).tz = some 0) := by
  have hutc : ∀ dt : PyDateTime, (utcIfNaive dt).tz.isSome = true := by
    intro dt
    cases htz : dt.tz with
    | none => simp [utcIfNaive, htz]
    | some z => simp [utcIfNaive, htz]
  have hnaive : ∀ dt : PyDateTime, dt.tz = none →
      utcIfNaive dt = ⟨dt.time, some 0⟩ := by
    intro dt h
    simp [utcIfNaive, h]
  refine ⟨?_, ?_, ?_⟩
  · cases isEmpty with
    | true => rfl
    | false =>
      cases iso with
      | some dt => simpa [parse_datetime] using hutc dt
      | none =>
        cases isoZ with
        | some dt => simpa [parse_datetime] using hutc dt
        | none =>
          cases du with
          | some dt => simpa [parse_datetime] using hutc dt
          | none => rfl
  · rintro (h | ⟨h1, h2, h3⟩)
    · simp [parse_datetime, h]
    · subst h1; subst h2; subst h3
      cases isEmpty <;> rfl
  · intro h1 h2 h3
    cases isEmpty with
    | true => rfl
    | false =>
      cases hi : iso with
      | some dt =>
        subst hi
        simp [parse_datetime, hnaive dt (h1 dt rfl)]
      | none =>
        subst hi
        cases hz : isoZ with
        | some dt =>
          subst hz
          simp [parse_datetime, hnaive dt (h2 dt rfl)]
        | none =>
          subst hz
          cases hd : du with
          | some dt =>
            subst hd
            simp [parse_datetime, hnaive dt (h3 dt rfl)]
          | none => subst hd; rfl

/-- Witness for C5: all attempts fail on garbage at instant 625. -/
theorem claim_C5_parse_total_witness :
    parse_datetime false none none none 625 = ⟨625, some 0⟩ :=
  (claim_C5_parse_total false none none none 625).2.1 (Or.inr ⟨rfl, rfl, rfl⟩)

/-- C3 counterexample: with "now" at 14:30 (minute 870 of day 0) the five
generated slots all start at minute-of-day 1410, i.e. 23:30, not at 09:00
(minute-of-day 540): each slot is `now + (i+1) days + 9 hours`, so its
time-of-day follows "now" instead of being pinned to 09:00. -/
theorem claim_C3_slots_counterexample :
    (find_optimal_slots 870 ["alice@example.com"] 60).map
        (fun s => minuteOfDay s.start_time) = [1410, 1410, 1410, 1410, 1410]
    ∧ (1410 : ℤ) ≠ 540 := by
  constructor
  · decide
  · decide

/-- C3 amended: for every "now", participants list and duration,
`find_optimal_slots` returns exactly 5 slots starting at
`now + (i+1) days + 9 hours` (i = 0..4) — 09:00-of-day only when "now" is
midnight — of exactly the requested length, with ai_score values
[10,9,8,7,6] in order, recommended flags [true,true,false,false,false],
and a result that is independent of the participants passed in. -/
theorem claim_C3_slots_amended (now : ℤ) (ps ps2 : List String) (dur : ℤ) :
    (find_optimal_slots now ps dur).length = 5
    ∧ (find_optimal_slots now ps dur).map (fun s => s.start_time) =
        [now + 1980, now + 3420, now + 4860, now + 6300, now + 7740]
    ∧ (find_optimal_slots now ps dur).map (fun s => s.end_time - s.start_time) =
        [dur, dur, dur, dur, dur]
    ∧ (find_optimal_slots now ps dur).map (fun s => s.ai_score) = [10, 9, 8, 7, 6]
    ∧ (find_optimal_slots now ps dur).map (fun s => s.recommended) =
        [true, true, false, false, false]
    ∧ find_optimal_slots now ps dur = find_optimal_slots now ps2 dur := by
  have h5 : List.range 5 = [0, 1, 2, 3, 4] := rfl
  refine ⟨rfl, ?_, ?_, rfl, rfl, rfl⟩
  · simp only [find_optimal_slots, h5, List.map_cons, List.map_nil, List.map_map]
    norm_num
    omega
  · simp only [find_optimal_slots, h5, List.map_cons, List.map_nil, List.map_map]
    norm_num

/-- C1 counterexample: the meeting `mBest` realises exactly the sub-score
profile named by the claim (duration 10, participants 10, time-of-day 10,
type 9, agenda 10, stored historical score 0), yet its effectiveness score
is 7.8, not the claimed 8.0: the weighted sum
0.2*10 + 0.15*10 + 0.15*10 + 0.2*9 + 0.1*10 equals 7.8. -/
theorem claim_C1_score_counterexample :
    duration_score mBest = 10 ∧ participant_score mBest = 10
    ∧ time_score mBest = 10 ∧ type_score mBest = 9 ∧ agenda_score mBest = 10
    ∧ mBest.effectiveness_score = 0
    ∧ score_meeting_effectiveness mBest = 7.8 ∧ (7.8 : ℚ) ≠ 8.0 := by
  have hl : ("123456789012345678901" : String).length = 21 := rfl
  refine ⟨?_, ?_, ?_, rfl, ?_, rfl, ?_, by norm_num⟩
  · norm_num [duration_score, mBest]
  · norm_num [participant_score, mBest]
  · norm_num [time_score, mBest, hourOf]
  · norm_num [agenda_score, mBest, hl]
  · norm_num [score_meeting_effectiveness, duration_score, participant_score,
      time_score, type_score, agenda_score, historical_term, py_min, py_max,
      mBest, hourOf, hl]

/-- C1 amended: for every meeting whose stored effectiveness score is 0
(historical factor absent), the returned effectiveness score is at most
7.8 — in particular at most the claimed 8.0 — and 7.8 is attained by a
meeting with duration sub-score 10, participant sub-score 10, time-of-day
sub-score 10, type sub-score 9 and agenda sub-score 10 (weighted sum
0.2*10 + 0.15*10 + 0.15*10 + 0.2*9 + 0.1*10 = 7.8). -/
theorem claim_C1_score_amended :
    (∀ m : Meeting, m.effectiveness_score = 0 →
        score_meeting_effectiveness m ≤ 7.8 ∧ (7.8 : ℚ) ≤ 8.0)
    ∧ (score_meeting_effectiveness mBest = 7.8 ∧ duration_score mBest = 10
        ∧ participant_score mBest = 10 ∧ time_score mBest = 10
        ∧ type_score mBest = 9 ∧ agenda_score mBest = 10) := by
  have hl : ("123456789012345678901" : String).length = 21 := rfl
  constructor
  · intro m hm
    refine ⟨?_, by norm_num⟩
    have hd : duration_score m ≤ 10 := by
      unfold duration_score
      dsimp only
      split_ifs <;> norm_num
    have hp : participant_score m ≤ 10 := by
      unfold participant_score
      dsimp only
      split_ifs <;> norm_num
    have ht : time_score m ≤ 10 := by
      unfold time_score
      dsimp only
      split_ifs <;> norm_num
    have hty : type_score m ≤ 9 := by
      unfold type_score
      split <;> norm_num
    have ha : agenda_score m ≤ 10 := by
      unfold agenda_score
      dsimp only
      split_ifs <;> norm_num
    have hh : historical_term m = 0 := by
      unfold historical_term
      rw [hm]
      norm_num
    apply py_max_nonneg_le _ (by norm_num)
    rw [hh]
    nlinarith
  · refine ⟨?_, ?_, ?_, ?_, rfl, ?_⟩
    · norm_num [score_meeting_effectiveness, duration_score, participant_score,
        time_score, type_score, agenda_score, historical_term, py_min, py_max,
        mBest, hourOf, hl]
    · norm_num [duration_score, mBest]
    · norm_num [participant_score, mBest]
    · norm_num [time_score, mBest, hourOf]
    · norm_num [agenda_score, mBest, hl]

/-- Witness for C1 amended, at the meeting `mBest`. -/
theorem claim_C1_score_amended_witness :
    score_meeting_effectiveness mBest ≤ 7.8 ∧ (7.8 : ℚ) ≤ 8.0 :=
  claim_C1_score_amended.1 mBest rfl

/-- C2 (documenting the code bug): for every non-empty list of team
members each of whom has zero meetings, every workload score is 0, so the
`balance_score` expression divides by `max(workload_scores) = 0` — the
source guards only the empty-list case (`if workload_scores else 1`), and
the computation raises `ZeroDivisionError` (modelled `none`) instead of
returning the spec's balance score 1. -/
theorem claim_C2_balance_div_zero (store : Store) (members : List String)
    (hne : members ≠ [])
    (hzero : ∀ mem ∈ members, get_user_meetings store mem = []) :
    balance_score store members = none := by
  have hws : ∀ mem ∈ members, workload_score store mem = 0 := by
    intro mem hm
    unfold workload_score
    rw [hzero mem hm]
    norm_num [total_duration, max_daily_count]
  cases hcase : members with
  | nil => exact absurd hcase hne
  | cons m rest =>
    subst hcase
    unfold balance_score workload_scores
    simp only [List.map_cons]
    have hm0 : workload_score store m = 0 := hws m (by simp)
    have hall : ∀ x ∈ rest.map (workload_score store), x = (0 : ℚ) := by
      intro x hx
      obtain ⟨mem, hmem, hx⟩ := List.mem_map.mp hx
      rw [← hx]
      exact hws mem (by simp [hmem])
    rw [hm0, foldl_py_max_zero hall]
    simp

/-- Witness for C2: one team member, empty store. -/
theorem claim_C2_balance_div_zero_witness : balance_score st0 ["u1"] = none :=
  claim_C2_balance_div_zero st0 ["u1"] (by simp)
    (fun mem hm => by simp at hm; subst hm; rfl)

/-- C6: for a range with `rangeStart ≤ rangeEnd`,
`detect_scheduling_conflicts` returns exactly the user's meetings (in
store order) whose start or end instant lies in `[rangeStart, rangeEnd]`
(boundaries inclusive) or whose span fully contains the range; in
particular a meeting of the user whose end equals `rangeStart` is
reported, even though the exclusive overlap test (`check_time_conflict`)
calls that meeting non-overlapping with the range. -/
theorem claim_C6_range_detect (store : Store) (uid : String) (rs re : ℤ)
    (h : rs ≤ re) :
    (detect_scheduling_conflicts store uid rs re =
      (get_user_meetings store uid).filter (fun m =>
        decide ((rs ≤ m.start_time ∧ m.start_time ≤ re)
          ∨ (rs ≤ m.end_time ∧ m.end_time ≤ re)
          ∨ (m.start_time ≤ rs ∧ re ≤ m.end_time))))
    ∧ (∀ m ∈ get_user_meetings store uid, m.end_time = rs →
        m ∈ detect_scheduling_conflicts store uid rs re
        ∧ check_time_conflict ⟨m.title, m.participants, some m.start_time, some m.end_time⟩
            ⟨"range", [], some rs, some re⟩ = false) := by
  have hpt : ∀ m : Meeting, in_conflict_range rs re m =
      decide ((rs ≤ m.start_time ∧ m.start_time ≤ re)
        ∨ (rs ≤ m.end_time ∧ m.end_time ≤ re)
        ∨ (m.start_time ≤ rs ∧ re ≤ m.end_time)) := by
    intro m
    rw [Bool.eq_iff_iff]
    simp only [in_conflict_range, Bool.or_eq_true, Bool.and_eq_true,
      decide_eq_true_eq]
    omega
  constructor
  · exact List.filter_congr (fun m _ => hpt m)
  · intro m hm hend
    constructor
    · unfold detect_scheduling_conflicts
      rw [List.mem_filter]
      refine ⟨hm, ?_⟩
      rw [hpt m]
      simp only [decide_eq_true_eq]
      omega
    · simp only [check_time_conflict, Bool.and_eq_false_iff,
        decide_eq_false_iff_not]
      right
      omega

/-- Witness for C6: user `u`'s meeting 15:00–16:40 against the range
16:40–18:20. -/
theorem claim_C6_range_detect_witness :
    mEnd ∈ detect_scheduling_conflicts stEnd "u" 1000 1100
    ∧ check_time_conflict ⟨mEnd.title, mEnd.participants, some mEnd.start_time, some mEnd.end_time⟩
        ⟨"range", [], some 1000, some 1100⟩ = false :=
  (claim_C6_range_detect stEnd "u" 1000 1100 (by norm_num)).2 mEnd (by decide) rfl

/-- Concrete evaluation of the slot scan over the empty store: two
hour-aligned 60-minute slots fit into [0, 120]. -/
theorem fas_st0_eval :
    find_available_slots st0 [] 60 0 120 = [⟨0, 60, 60⟩, ⟨60, 120, 60⟩] := by
  have hbusy : busy_times st0 [] 0 120 = [] := rfl
  unfold find_available_slots
  rw [hbusy, slot_scan_step_free (by norm_num) (by decide),
    slot_scan_step_free (by norm_num) (by decide),
    slot_scan_stop (by norm_num)]
  norm_num

/-- Concrete evaluation of the slot scan over `stA` for participant `p` on
[1000, 1240]: `mA` starts before the range, contributes no busy interval,
and four slots come back. -/
theorem fas_stA_eval :
    find_available_slots stA ["p"] 60 1000 1240 =
      [⟨1000, 1060, 60⟩, ⟨1060, 1120, 60⟩, ⟨1120, 1180, 60⟩, ⟨1180, 1240, 60⟩] := by
  have hbusy : busy_times stA ["p"] 1000 1240 = [] := rfl
  unfold find_available_slots
  rw [hbusy, slot_scan_step_free (by norm_num) (by decide),
    slot_scan_step_free (by norm_num) (by decide),
    slot_scan_step_free (by norm_num) (by decide),
    slot_scan_step_free (by norm_num) (by decide),
    slot_scan_stop (by norm_num)]
  norm_num

/-- C7: `find_available_slots` returns at most 5 slots, and every returned
slot starts at `rangeStart` plus a whole number of hours, has length
exactly `durationMinutes`, ends no later than `rangeEnd`, and overlaps
(under the exclusive overlap test) no busy interval collected for the
participants. -/
theorem claim_C7_available_slots (store : Store) (ps : List String)
    (dur rs re : ℤ) :
    (find_available_slots store ps dur rs re).length ≤ 5
    ∧ ∀ s ∈ find_available_slots store ps dur rs re,
        (∃ k : ℕ, s.start_time = rs + 60 * k)
        ∧ s.end_time = s.start_time + dur
        ∧ s.end_time ≤ re
        ∧ ∀ b ∈ busy_times store ps rs re,
            ¬(s.start_time < b.2 ∧ b.1 < s.end_time) := by
  constructor
  · unfold find_available_slots
    rw [List.length_take]
    exact inf_le_left
  · intro s hs
    have hs' : s ∈ slot_scan (busy_times store ps rs re) dur re rs :=
      List.mem_of_mem_take hs
    obtain ⟨hk, hend, _, hle, hconf⟩ :=
      slot_scan_sound (busy_times store ps rs re) dur re rs s hs'
    refine ⟨hk, hend, hle, ?_⟩
    intro b hb
    unfold slot_conflicts at hconf
    rw [List.any_eq_false] at hconf
    have := hconf b hb
    simp only [Bool.and_eq_true, decide_eq_true_eq, not_and, gt_iff_lt] at this
    intro hcontra
    exact this hcontra.1 hcontra.2

/-- Witness for C7: the first slot over the empty store on [0, 120]. -/
theorem claim_C7_available_slots_witness :
    (find_available_slots st0 [] 60 0 120).length ≤ 5
    ∧ ((∃ k : ℕ, (⟨0, 60, 60⟩ : Slot).start_time = 0 + 60 * k)
        ∧ (⟨0, 60, 60⟩ : Slot).end_time = (⟨0, 60, 60⟩ : Slot).start_time + 60
        ∧ (⟨0, 60, 60⟩ : Slot).end_time ≤ 120
        ∧ ∀ b ∈ busy_times st0 [] 0 120,
            ¬((⟨0, 60, 60⟩ : Slot).start_time < b.2
              ∧ b.1 < (⟨0, 60, 60⟩ : Slot).end_time)) :=
  ⟨(claim_C7_available_slots st0 [] 60 0 120).1,
    (claim_C7_available_slots st0 [] 60 0 120).2 ⟨0, 60, 60⟩
      (by rw [fas_st0_eval]; simp)⟩

/-- C9: the busy intervals of `find_available_slots` come only from
meetings whose *start* lies in `[rangeStart, rangeEnd]`; a participant's
meeting that starts before the range and extends into it contributes no
busy interval, and concretely (`mA`, in progress at range start 1000) the
returned first slot (1000–1060) overlaps that meeting under the exclusive
overlap test. -/
theorem claim_C9_busy_start_only :
    (∀ (store : Store) (ps : List String) (rs re : ℤ) (b : ℤ × ℤ),
        b ∈ busy_times store ps rs re →
        ∃ p ∈ ps, ∃ m ∈ get_user_meetings store p,
          b = (m.start_time, m.end_time) ∧ rs ≤ m.start_time ∧ m.start_time ≤ re)
    ∧ (busy_times stA ["p"] 1000 1240 = []
        ∧ mA ∈ get_user_meetings stA "p"
        ∧ mA.start_time < 1000 ∧ 1000 < mA.end_time
        ∧ (⟨1000, 1060, 60⟩ : Slot) ∈ find_available_slots stA ["p"] 60 1000 1240
        ∧ check_time_conflict
            ⟨mA.title, mA.participants, some mA.start_time, some mA.end_time⟩
            ⟨"slot", [], some 1000, some 1060⟩ = true) := by
  constructor
  · intro store ps rs re b hb
    unfold busy_times at hb
    rw [List.mem_flatMap] at hb
    obtain ⟨p, hp, hb⟩ := hb
    rw [List.mem_map] at hb
    obtain ⟨m, hm, hb⟩ := hb
    rw [List.mem_filter] at hm
    refine ⟨p, hp, m, hm.1, hb.symm, ?_⟩
    have := hm.2
    simp only [Bool.and_eq_true, decide_eq_true_eq] at this
    exact this
  · refine ⟨rfl, by decide, by decide, by decide, ?_, by decide⟩
    rw [fas_stA_eval]
    simp

/-- Witness for C9: the single busy interval of `stB` traced back to its
meeting. -/
theorem claim_C9_busy_start_only_witness :
    ∃ p ∈ ["q"], ∃ m ∈ get_user_meetings stB p,
      ((1000 : ℤ), (1060 : ℤ)) = (m.start_time, m.end_time)
        ∧ (1000 : ℤ) ≤ m.start_time ∧ m.start_time ≤ 1240 :=
  claim_C9_busy_start_only.1 stB ["q"] 1000 1240 (1000, 1060)
    (by rw [show busy_times stB ["q"] 1000 1240 = [(1000, 1060)] from rfl]; simp)

/-- C8 counterexample: user `u` has a single meeting starting at 18:30
(minute-of-day 1110, which is after 18:00); the code's `optimization_score`
is 100 because the non-business test uses `start_time.hour > 18` and
`hour(18:30) = 18`, while the claim's formula — one meeting starting after
18:00, no overloaded day — yields `max(0, 100 - 20*0 - 10*1) = 90`. -/
theorem claim_C8_optimize_counterexample :
    optimization_score st18 "u" = 100
    ∧ ((get_user_meetings st18 "u").filter (fun m =>
        decide (minuteOfDay m.start_time < 480)
          || decide (minuteOfDay m.start_time > 1080))).length = 1
    ∧ (overloaded_days st18 "u").length = 0
    ∧ py_max_int 0 (100 - 20 * 0 - 10 * 1) = 90
    ∧ (100 : ℤ) ≠ 90 := by
  refine ⟨by decide, by decide, by decide, by decide, by decide⟩

/-- C8 amended: `optimization_score` equals
`max(0, 100 - 20*(days whose meeting count exceeds the limit) -
10*(meetings whose start *hour* is < 8 or > 18))` — hour granularity, so a
meeting starting 18:01–18:59 is not penalized; and a user whose meetings
all fall on one day and within business hours, exceeding a limit of 5 by
two, gets exactly one overloaded-day recommendation listing exactly the
two excess meetings in stored order, with score 80. -/
theorem claim_C8_optimize_amended :
    (∀ (store : Store) (uid : String),
        optimization_score store uid = py_max_int 0
          (100 - 20 * (((meeting_dates (get_user_meetings store uid)).filter
                (fun d => decide ((meetings_on (get_user_meetings store uid) d).length >
                  max_daily_limit store uid))).length : ℤ)
            - 10 * (((get_user_meetings store uid).filter
                (fun m => decide (hourOf m.start_time < 8)
                  || decide (hourOf m.start_time > 18))).length : ℤ)))
    ∧ (∀ (store : Store) (uid : String) (d : ℤ),
        max_daily_limit store uid = 5 →
        (get_user_meetings store uid).length = 7 →
        (∀ m ∈ get_user_meetings store uid, dateOf m.start_time = d) →
        (∀ m ∈ get_user_meetings store uid,
          8 ≤ hourOf m.start_time ∧ hourOf m.start_time ≤ 18) →
        optimize_meeting_schedule store uid =
          some (80, [(d, ((get_user_meetings store uid).drop 5).map (fun m => m.title))])
        ∧ (((get_user_meetings store uid).drop 5).map (fun m => m.title)).length = 2) := by
  constructor
  · intro store uid
    have hod : (overloaded_days store uid).length =
        ((meeting_dates (get_user_meetings store uid)).filter
          (fun d => decide ((meetings_on (get_user_meetings store uid) d).length >
            max_daily_limit store uid))).length := by
      unfold overloaded_days
      exact length_filterMap_ite _ _ _
    have hnb : non_business_meetings store uid =
        (get_user_meetings store uid).filter
          (fun m => decide (hourOf m.start_time < 8)
            || decide (hourOf m.start_time > 18)) := rfl
    rw [← hod, ← hnb]
    unfold optimization_score py_max_int
    have he1 : (overloaded_days store uid).isEmpty = true ↔
        (overloaded_days store uid).length = 0 := by
      rw [List.isEmpty_iff, List.length_eq_zero]
    have he2 : (non_business_meetings store uid).isEmpty = true ↔
        (non_business_meetings store uid).length = 0 := by
      rw [List.isEmpty_iff, List.length_eq_zero]
    dsimp only
    simp only [he1, he2]
    split_ifs <;> omega
  · intro store uid d hlim hlen7 hdates hhours
    have hne : get_user_meetings store uid ≠ [] := by
      intro h
      rw [h] at hlen7
      simp at hlen7
    have hdl : meeting_dates (get_user_meetings store uid) = [d] := by
      unfold meeting_dates
      apply firstDedup_const
      · simp [hne]
      · intro x hx
        rw [List.mem_map] at hx
        obtain ⟨m, hm, hx⟩ := hx
        rw [← hx]
        exact hdates m hm
    have hmon : meetings_on (get_user_meetings store uid) d =
        get_user_meetings store uid := by
      unfold meetings_on
      apply List.filter_eq_self.mpr
      intro m hm
      simp [hdates m hm]
    have hod : overloaded_days store uid = [(d, get_user_meetings store uid)] := by
      unfold overloaded_days
      dsimp only
      rw [hdl]
      simp [List.filterMap, hmon, hlen7, hlim]
    have hnb : non_business_meetings store uid = [] := by
      unfold non_business_meetings
      apply List.filter_eq_nil_iff.mpr
      intro m hm
      have := hhours m hm
      simp only [Bool.or_eq_true, decide_eq_true_eq, not_or]
      omega
    have hscore : optimization_score store uid = 80 := by
      unfold optimization_score
      rw [hod, hnb]
      norm_num [py_max_int]
    have hrecs : overloaded_day_recs store uid =
        [(d, ((get_user_meetings store uid).drop 5).map (fun m => m.title))] := by
      unfold overloaded_day_recs
      rw [hod, hlim]
      rfl
    constructor
    · unfold optimize_meeting_schedule
      have : (get_user_meetings store uid).isEmpty = false := by
        rw [Bool.eq_false_iff]
        intro h
        exact hne (List.isEmpty_iff.mp h)
      rw [this]
      simp only [Bool.false_eq_true, if_false]
      rw [hscore, hrecs]
    · rw [List.length_map, List.length_drop, hlen7]

/-- Witness for C8 amended: the seven-meeting store `st8`. -/
theorem claim_C8_optimize_amended_witness :
    optimize_meeting_schedule st8 "u" =
      some (80, [(0, ((get_user_meetings st8 "u").drop 5).map (fun m => m.title))])
    ∧ (((get_user_meetings st8 "u").drop 5).map (fun m => m.title)).length = 2 :=
  claim_C8_optimize_amended.2 st8 "u" 0 rfl (by decide) (by decide) (by decide)

end MCPServer
